import Mathlib

/-!
Verification of the education-guidance CRUD backend (single Express entry
point).  Each HTTP handler is embedded as a pure Lean function from its
request data and the relevant store(s) to a response and the updated
store(s).  External services (bcrypt, jwt, the CSV decoder, the blob
store) are passed in as opaque function or association-list parameters,
matching the specification's treatment of them as collaborators.
MongoDB document ids are modelled as opaque natural numbers.
-/

namespace NodeApp

/-! ## JSON values and `JSON.parse`

`submitDetails` calls `JSON.parse` on four serialized body fields.  We
embed a recursive-descent JSON reader over the character list; number
lexemes are kept verbatim and `\u` escapes are decoded to a placeholder
character (handlers never inspect decoded text, only parse success). -/

inductive Json where
  | null
  | boolean (b : Bool)
  | number (lexeme : String)
  | text (s : String)
  | array (elems : List Json)
  | object (fields : List (String × Json))

def isJsonWs (c : Char) : Bool :=
  c = ' ' || c = '\t' || c = '\n' || c = '\r'

def skipWs : List Char → List Char
  | [] => []
  | c :: cs => if isJsonWs c then skipWs cs else c :: cs

def isHexDigitChar (c : Char) : Bool :=
  c.isDigit || ('a' ≤ c && c ≤ 'f') || ('A' ≤ c && c ≤ 'F')

def escapeChar (c : Char) : Option Char :=
  if c = '"' then some '"'
  else if c = '\\' then some '\\'
  else if c = '/' then some '/'
  else if c = 'b' then some (Char.ofNat 8)
  else if c = 'f' then some (Char.ofNat 12)
  else if c = 'n' then some '\n'
  else if c = 'r' then some '\r'
  else if c = 't' then some '\t'
  else none

def dropLit : List Char → List Char → Option (List Char)
  | [], cs => some cs
  | _ :: _, [] => none
  | l :: ls, c :: cs => if c = l then dropLit ls cs else none

def parseStringBody (fuel : Nat) (acc : List Char) (cs : List Char) :
    Option (String × List Char) :=
  match fuel, cs with
  | 0, _ => none
  | _, [] => none
  | fuel + 1, c :: cs =>
    if c = '"' then some (String.mk acc.reverse, cs)
    else if c = '\\' then
      match cs with
      | [] => none
      | e :: cs2 =>
        if e = 'u' then
          match cs2 with
          | h1 :: h2 :: h3 :: h4 :: rest =>
            if isHexDigitChar h1 && isHexDigitChar h2 && isHexDigitChar h3 &&
                isHexDigitChar h4 then
              parseStringBody fuel ('?' :: acc) rest
            else none
          | _ => none
        else
          match escapeChar e with
          | some d => parseStringBody fuel (d :: acc) cs2
          | none => none
    else if c.toNat < 32 then none
    else parseStringBody fuel (c :: acc) cs

def takeWhileDigits : List Char → (List Char × List Char)
  | [] => ([], [])
  | c :: cs =>
    if c.isDigit then
      let (d, r) := takeWhileDigits cs
      (c :: d, r)
    else ([], c :: cs)

def finishExp (pre : List Char) (cs : List Char) : Option (String × List Char) :=
  match cs with
  | [] => some (String.mk pre, [])
  | c :: cs2 =>
    if c = 'e' ∨ c = 'E' then
      let (sg, cs3) : List Char × List Char :=
        match cs2 with
        | '+' :: r => (['+'], r)
        | '-' :: r => (['-'], r)
        | _ => ([], cs2)
      let (eds, cs4) := takeWhileDigits cs3
      if eds.isEmpty then none
      else some (String.mk (pre ++ c :: (sg ++ eds)), cs4)
    else some (String.mk pre, c :: cs2)

def finishNumber (sign intPart : List Char) (cs : List Char) :
    Option (String × List Char) :=
  match cs with
  | '.' :: cs2 =>
    let (fds, cs3) := takeWhileDigits cs2
    if fds.isEmpty then none
    else finishExp (sign ++ intPart ++ '.' :: fds) cs3
  | _ => finishExp (sign ++ intPart) cs

def parseNumberLex (cs : List Char) : Option (String × List Char) :=
  let (sign, cs1) : List Char × List Char :=
    match cs with
    | '-' :: rest => (['-'], rest)
    | _ => ([], cs)
  match cs1 with
  | [] => none
  | c :: rest =>
    if c = '0' then finishNumber sign ['0'] rest
    else if c.isDigit then
      let (ds, cs2) := takeWhileDigits cs1
      finishNumber sign ds cs2
    else none

mutual

def parseValue : Nat → List Char → Option (Json × List Char)
  | 0, _ => none
  | fuel + 1, cs =>
    match skipWs cs with
    | [] => none
    | c :: rest =>
      if c = 'n' then (dropLit ['u', 'l', 'l'] rest).map (fun r => (Json.null, r))
      else if c = 't' then
        (dropLit ['r', 'u', 'e'] rest).map (fun r => (Json.boolean true, r))
      else if c = 'f' then
        (dropLit ['a', 'l', 's', 'e'] rest).map (fun r => (Json.boolean false, r))
      else if c = '"' then
        (parseStringBody (rest.length + 1) [] rest).map (fun p => (Json.text p.1, p.2))
      else if c = '[' then
        match skipWs rest with
        | ']' :: r2 => some (Json.array [], r2)
        | r2 => parseArrayItems fuel r2 []
      else if c = '\x7b' then
        match skipWs rest with
        | '\x7d' :: r2 => some (Json.object [], r2)
        | r2 => parseObjectItems fuel r2 []
      else if c = '-' ∨ c.isDigit then
        (parseNumberLex (c :: rest)).map (fun p => (Json.number p.1, p.2))
      else none

def parseArrayItems : Nat → List Char → List Json → Option (Json × List Char)
  | 0, _, _ => none
  | fuel + 1, cs, acc =>
    match parseValue fuel cs with
    | none => none
    | some (v, rest) =>
      match skipWs rest with
      | ',' :: r2 => parseArrayItems fuel r2 (acc ++ [v])
      | ']' :: r2 => some (Json.array (acc ++ [v]), r2)
      | _ => none

def parseObjectItems : Nat → List Char → List (String × Json) →
    Option (Json × List Char)
  | 0, _, _ => none
  | fuel + 1, cs, acc =>
    match skipWs cs with
    | '"' :: r1 =>
      match parseStringBody (r1.length + 1) [] r1 with
      | none => none
      | some (key, r2) =>
        match skipWs r2 with
        | ':' :: r3 =>
          match parseValue fuel r3 with
          | none => none
          | some (v, r4) =>
            match skipWs r4 with
            | ',' :: r5 => parseObjectItems fuel r5 (acc ++ [(key, v)])
            | '\x7d' :: r5 => some (Json.object (acc ++ [(key, v)]), r5)
            | _ => none
        | _ => none
    | _ => none

end

/-- Model of `JSON.parse`: parse one value, then require only trailing
whitespace.  The fuel `2 * length + 2` dominates the recursion depth. -/
def jsonParse (s : String) : Option Json :=
  match parseValue (2 * s.length + 2) s.data with
  | none => none
  | some (v, rest) => if (skipWs rest).isEmpty then some v else none

/-! ## Users: `POST /api/register` and `POST /api/login` -/

structure User where
  name : String
  email : String
  password : String
  userType : String
  createdAt : Nat
deriving DecidableEq

/-- Model of JavaScript `String.prototype.toLowerCase` (ASCII range). -/
def toLowerCase (s : String) : String :=
  String.mk (s.data.map Char.toLower)

/-- The string contains at least one (ASCII) uppercase letter. -/
def hasUpper (s : String) : Bool :=
  s.data.any Char.isUpper

/-- `User.findOne({ email })`: first stored user with exactly this email. -/
def findUserByEmail (store : List User) (email : String) : Option User :=
  store.find? (fun u => u.email == email)

/-- `POST /api/register`.  Body fields are `Option` (absent = `undefined`);
an absent or empty field is falsy and rejected.  `bcrypt.hash` is the
opaque parameter `hash`; `Date.now` is `now`.  The mongoose enum check on
`userType` happens at `save` and surfaces as the catch-all 500. -/
def register (hash : String → String) (now : Nat)
    (name email password userType : Option String) (store : List User) :
    (Nat × String) × List User :=
  match name, email, password, userType with
  | some name, some email, some password, some userType =>
    if name = "" ∨ email = "" ∨ password = "" ∨ userType = "" then
      ((400, "All fields are required."), store)
    else if (findUserByEmail store (toLowerCase email)).isSome then
      ((400, "Email already in use."), store)
    else if userType = "admin" ∨ userType = "student" then
      ((201, "User registered successfully."),
        store ++ [{ name := name, email := toLowerCase email,
                    password := hash password, userType := userType,
                    createdAt := now }])
    else
      ((500, "Server error."), store)
  | _, _, _, _ => ((400, "All fields are required."), store)

inductive LoginResult where
  | failure (status : Nat) (message : String)
  | success (token : String) (userType : String) (name : String)
deriving DecidableEq

/-- `POST /api/login`.  The lookup uses the email exactly as given (no
lowercasing).  `bcrypt.compare` is the opaque parameter `compare` and
`jwt.sign` the opaque parameter `sign`. -/
def login (compare : String → String → Bool) (sign : User → String)
    (email password : Option String) (store : List User) : LoginResult :=
  match email, password with
  | some email, some password =>
    if email = "" ∨ password = "" then
      .failure 400 "Email and password are required."
    else
      match findUserByEmail store email with
      | none => .failure 400 "Invalid credentials."
      | some user =>
        if compare password user.password then
          .success (sign user) user.userType user.name
        else .failure 400 "Invalid credentials."
  | _, _ => .failure 400 "Email and password are required."

/-! ## Student profiles: `POST /api/students/submitDetails` -/

structure Student where
  email : Option String
  location : Option String
  pinCode : Option String
  marks10 : Json
  is12thCompleted : Json
  marks12 : Json
  parents : Json
  interests : Option String
  hobbies : Option String
  fieldOfInterest : Option String
  photo : Option String
  markSheet : Option String

/-- The multipart body of `submitDetails`: plain text fields plus the
four serialized structured fields, and the filenames multer assigned to
the two optional uploads. -/
structure SubmitDetailsBody where
  email : Option String
  location : Option String
  pinCode : Option String
  marks10 : Option String
  is12thCompleted : Option String
  marks12 : Option String
  parents : Option String
  interests : Option String
  hobbies : Option String
  fieldOfInterest : Option String
  photoFile : Option String
  markSheetFile : Option String

/-- `JSON.parse` applied to a possibly-absent body field:
`JSON.parse(undefined)` throws, so an absent field decodes to `none`. -/
def jsonParseField : Option String → Option Json
  | none => none
  | some s => jsonParse s

/-- `POST /api/students/submitDetails`.  The four serialized fields are
decoded with `JSON.parse`; any decode failure lands in the handler's
catch block, which answers 500 and saves nothing.  The mongoose
`required` check on `email` also surfaces through the same catch. -/
def submitDetails (body : SubmitDetailsBody) (store : List Student) :
    (Nat × String) × List Student :=
  match jsonParseField body.marks10 with
  | none => ((500, "Failed to save student details"), store)
  | some m10 =>
    match jsonParseField body.is12thCompleted with
    | none => ((500, "Failed to save student details"), store)
    | some m12c =>
      match jsonParseField body.marks12 with
      | none => ((500, "Failed to save student details"), store)
      | some m12 =>
        match jsonParseField body.parents with
        | none => ((500, "Failed to save student details"), store)
        | some par =>
          match body.email with
          | none => ((500, "Failed to save student details"), store)
          | some email =>
            if email = "" then ((500, "Failed to save student details"), store)
            else
              ((201, "Student details saved successfully"),
                store ++ [{ email := some email, location := body.location,
                            pinCode := body.pinCode, marks10 := m10,
                            is12thCompleted := m12c, marks12 := m12,
                            parents := par, interests := body.interests,
                            hobbies := body.hobbies,
                            fieldOfInterest := body.fieldOfInterest,
                            photo := body.photoFile.map (fun f => "/uploads/" ++ f),
                            markSheet := body.markSheetFile.map
                              (fun f => "/uploads/" ++ f) }])

/-! ## College-admin workflow: `POST /approveCollegeAdmin`,
`POST /disapproveCollegeAdmin` -/

structure CollegeAdminRecord where
  id : Nat
  email : String
  location : String
  pincode : String
  universityAffiliation : String
  naacCertPhoto : String
  website : String
  noOfBranches : Int
  branches : List String
deriving DecidableEq

structure CollegeAdminState where
  pending : List CollegeAdminRecord
  approved : List CollegeAdminRecord
deriving DecidableEq

/-- `findByIdAndDelete`: remove the (unique) record with this id; a miss
removes nothing and is not an error. -/
def removeById (store : List CollegeAdminRecord) (i : Nat) :
    List CollegeAdminRecord :=
  match store with
  | [] => []
  | r :: rs => if r.id = i then rs else r :: removeById rs i

/-- First await of the approve handler:
`ApprovedCollegeAdmin.create(admin)`. -/
def approveCollegeAdminStep1 (admin : CollegeAdminRecord)
    (st : CollegeAdminState) : CollegeAdminState :=
  { st with approved := st.approved ++ [admin] }

/-- Second await of the approve handler:
`CollegeAdmin.findByIdAndDelete(admin._id)`. -/
def approveCollegeAdminStep2 (admin : CollegeAdminRecord)
    (st : CollegeAdminState) : CollegeAdminState :=
  { st with pending := removeById st.pending admin.id }

/-- `POST /approveCollegeAdmin`: copy the posted record into the approved
collection, then delete the pending record with the posted id; always
answers 200 when both store operations succeed. -/
def approveCollegeAdmin (admin : CollegeAdminRecord)
    (st : CollegeAdminState) : Nat × CollegeAdminState :=
  (200, approveCollegeAdminStep2 admin (approveCollegeAdminStep1 admin st))

/-- `POST /disapproveCollegeAdmin`: delete the pending record by id;
always answers 200 whether or not the id matched. -/
def disapproveCollegeAdmin (i : Nat) (st : CollegeAdminState) :
    Nat × CollegeAdminState :=
  (200, { st with pending := removeById st.pending i })

/-! ## Placement workflow -/

structure PlacementData where
  id : Nat
  collegeName : String
  year : Int
  fileUrl : String
  fileName : String
  mimeType : String
  approved : Bool
deriving DecidableEq

/-- One decoded CSV row, as produced by the csv-parser collaborator. -/
abbrev CsvRow := List (String × String)

/-- The blob store plus CSV decoder, as one collaborator: which file
paths exist and what rows each decodes to. -/
abbrev FileSys := List (String × List CsvRow)

def fileLookup (fs : FileSys) (p : String) : Option (List CsvRow) :=
  (fs.find? (fun e => e.1 == p)).map (fun e => e.2)

structure PendingEntry where
  id : Nat
  collegeName : String
  year : Int
  data : List CsvRow
deriving DecidableEq

/-- `GET /api/get-placement-data`: every record with `approved = false`,
skipping (best-effort) records whose referenced file is missing. -/
def listPending (fs : FileSys) (store : List PlacementData) :
    List PendingEntry :=
  (store.filter (fun r => r.approved = false)).filterMap (fun r =>
    (fileLookup fs r.fileUrl).map (fun rows =>
      { id := r.id, collegeName := r.collegeName, year := r.year,
        data := rows }))

structure ApproveResult where
  status : Nat
  message : String
  updated : Option PlacementData
deriving DecidableEq

def findPlacementById (store : List PlacementData) (pid : Nat) :
    Option PlacementData :=
  store.find? (fun r => r.id == pid)

/-- `findByIdAndUpdate(pid, \x7b approved: true \x7d)` on the store: set
`approved` on the (unique) matching record, in place. -/
def setApproved (store : List PlacementData) (pid : Nat) :
    List PlacementData :=
  match store with
  | [] => []
  | r :: rs =>
    if r.id = pid then { r with approved := true } :: rs
    else r :: setApproved rs pid

/-- `POST /api/approve-placement/:id`: flip `approved` in place and
return the updated record (`new: true`), or 404 when the id is absent. -/
def approvePlacement (pid : Nat) (store : List PlacementData) :
    ApproveResult × List PlacementData :=
  match findPlacementById store pid with
  | none => ({ status := 404, message := "Placement not found", updated := none }, store)
  | some r =>
    ({ status := 200, message := "Placement approved successfully",
       updated := some { r with approved := true } }, setApproved store pid)

/-- Model of JavaScript `parseInt` (base-10 with the `0x` prefix rule):
`none` stands for `NaN`, which matches no stored numeric `year`. -/
def digitValue (base : Nat) (c : Char) : Option Nat :=
  let v : Option Nat :=
    if c.isDigit then some (c.toNat - 48)
    else if 'a' ≤ c ∧ c ≤ 'z' then some (c.toNat - 87)
    else if 'A' ≤ c ∧ c ≤ 'Z' then some (c.toNat - 55)
    else none
  match v with
  | some d => if d < base then some d else none
  | none => none

def takeDigitsAux (base : Nat) : List Char → Nat → Bool → Option Nat
  | [], acc, seen => if seen then some acc else none
  | c :: cs, acc, seen =>
    match digitValue base c with
    | some d => takeDigitsAux base cs (acc * base + d) true
    | none => if seen then some acc else none

def parseIntJS (s : String) : Option Int :=
  let cs := skipWs s.data
  let (sgn, cs1) : Int × List Char :=
    match cs with
    | '-' :: rest => (-1, rest)
    | '+' :: rest => (1, rest)
    | _ => (1, cs)
  match cs1 with
  | '0' :: c :: rest =>
    if c = 'x' ∨ c = 'X' then
      (takeDigitsAux 16 rest 0 false).map (fun n => sgn * (n : Int))
    else (takeDigitsAux 10 cs1 0 false).map (fun n => sgn * (n : Int))
  | _ => (takeDigitsAux 10 cs1 0 false).map (fun n => sgn * (n : Int))

structure ApprovedEntry where
  collegeName : String
  year : Int
  data : List CsvRow
deriving DecidableEq

inductive QueryResult where
  | failure (status : Nat) (message : String)
  | ok (entries : List ApprovedEntry)
deriving DecidableEq

/-- Does a placement record match the approved-query filter? -/
def approvedFilter (cn : String) (y : String) (r : PlacementData) : Prop :=
  r.collegeName = cn ∧ some r.year = parseIntJS y ∧ r.approved = true

instance (cn y : String) (r : PlacementData) :
    Decidable (approvedFilter cn y r) := by
  unfold approvedFilter
  infer_instance

/-- `GET /api/get-approved-placement-data?collegeName&year`: 400 when a
filter is missing or empty, 404 when no approved record matches
`collegeName` + `parseInt(year)`, else one entry per matching record
whose referenced file exists. -/
def queryApproved (fs : FileSys) (collegeName year : Option String)
    (store : List PlacementData) : QueryResult :=
  match collegeName, year with
  | some cn, some y =>
    if cn = "" ∨ y = "" then
      .failure 400 "College name and year are required"
    else
      let recs := store.filter (fun r => decide (approvedFilter cn y r))
      if recs.isEmpty then
        .failure 404 "No approved placements found for the specified college and year"
      else
        .ok (recs.filterMap (fun r =>
          (fileLookup fs r.fileUrl).map (fun rows =>
            { collegeName := r.collegeName, year := r.year, data := rows })))
  | _, _ => .failure 400 "College name and year are required"

/-! ## Transaction ledger: `POST /transactions`, `POST /payment-status` -/

structure Transaction where
  email : Option String
  orderId : Option String
  amount : Option Int
  status : String
  timestamp : Nat
deriving DecidableEq

/-- `POST /transactions`: create a ledger record with the schema defaults
`status = "pending"` and `timestamp = Date.now`. -/
def recordTransaction (now : Nat) (email orderId : Option String)
    (amount : Option Int) (store : List Transaction) :
    (Nat × Transaction) × List Transaction :=
  let t : Transaction :=
    { email := email, orderId := orderId, amount := amount,
      status := "pending", timestamp := now }
  ((201, t), store ++ [t])

/-- Update the status of the (first) transaction with this orderId. -/
def setTransactionStatus (store : List Transaction) (oid status : String) :
    List Transaction :=
  match store with
  | [] => []
  | t :: ts =>
    if t.orderId = some oid then { t with status := status } :: ts
    else t :: setTransactionStatus ts oid status

/-- `POST /payment-status`: `findOneAndUpdate({ orderId }, { status },
{ new: true, upsert: true })` — update the matching record's status, or
insert a fresh record carrying only the filter and update fields plus the
schema's default timestamp; either way answer 200 with the record. -/
def updateStatus (now : Nat) (oid status : String)
    (store : List Transaction) : (Nat × Transaction) × List Transaction :=
  match store.find? (fun t => t.orderId == some oid) with
  | some t =>
    ((200, { t with status := status }), setTransactionStatus store oid status)
  | none =>
    let t : Transaction :=
      { email := none, orderId := some oid, amount := none,
        status := status, timestamp := now }
    ((200, t), store ++ [t])

/-! ## Concrete sample data used by counterexamples and witnesses -/

def sampleAdmin : CollegeAdminRecord :=
  { id := 1, email := "dean@uni.edu", location := "Pune", pincode := "411001",
    universityAffiliation := "SPPU", naacCertPhoto := "/uploads/naac.png",
    website := "uni.edu", noOfBranches := 2, branches := ["cs", "it"] }

def sampleAdmin2 : CollegeAdminRecord :=
  { id := 2, email := "head@col.edu", location := "Mumbai", pincode := "400001",
    universityAffiliation := "MU", naacCertPhoto := "/uploads/cert.png",
    website := "col.edu", noOfBranches := 1, branches := ["mech"] }

def malformedBody : SubmitDetailsBody :=
  { email := some "stu@mail.com", location := some "Pune",
    pinCode := some "411001", marks10 := some "not json",
    is12thCompleted := some "true",
    marks12 := some "\x7b\"math\": \"80\"\x7d",
    parents := some "\x7b\"fatherName\": \"R\"\x7d",
    interests := some "ai", hobbies := some "chess",
    fieldOfInterest := some "cs", photoFile := some "p.png",
    markSheetFile := none }

def samplePlacement : PlacementData :=
  { id := 7, collegeName := "IIT", year := 2023, fileUrl := "uploads/iit.csv",
    fileName := "iit.csv", mimeType := "text/csv", approved := false }

def sampleRows : List CsvRow :=
  [[("name", "A"), ("package", "12")], [("name", "B"), ("package", "9")]]

def sampleApproved : PlacementData :=
  { samplePlacement with approved := true }

def sampleFs : FileSys :=
  [("uploads/iit.csv", sampleRows)]

def sampleTransaction : Transaction :=
  { email := some "stu@mail.com", orderId := some "ord1", amount := some 500,
    status := "pending", timestamp := 10 }

/-! ## Helper lemmas -/

theorem char_toLower_not_upper (c : Char) : c.toLower.isUpper = false := by
  unfold Char.toLower
  by_cases h : c.toNat ≥ 65 ∧ c.toNat ≤ 90
  · rw [if_pos h]
    have hvalid : (c.toNat + 32).isValidChar := by
      unfold Nat.isValidChar
      left
      omega
    rw [Char.ofNat, dif_pos hvalid]
    simp only [Char.isUpper, Bool.and_eq_false_iff, decide_eq_false_iff_not]
    right
    intro hle
    have hle2 : c.toNat + 32 ≤ (90 : UInt32).toNat := hle
    have h90 : (90 : UInt32).toNat = 90 := rfl
    omega
  · rw [if_neg h]
    simp only [Char.isUpper, Bool.and_eq_false_iff, decide_eq_false_iff_not]
    by_cases h1 : 65 ≤ c.toNat
    · right
      intro hle
      have hle2 : c.toNat ≤ (90 : UInt32).toNat := hle
      have h90 : (90 : UInt32).toNat = 90 := rfl
      omega
    · left
      intro hge
      have hge2 : (65 : UInt32).toNat ≤ c.toNat := hge
      have h65 : (65 : UInt32).toNat = 65 := rfl
      omega

theorem hasUpper_toLowerCase (s : String) : hasUpper (toLowerCase s) = false := by
  unfold hasUpper toLowerCase
  rw [List.any_eq_false]
  intro c hc
  rw [List.mem_map] at hc
  obtain ⟨d, _, hd⟩ := hc
  rw [← hd]
  simp [char_toLower_not_upper d]

theorem toLowerCase_ne_of_hasUpper {s : String} (h : hasUpper s = true) :
    toLowerCase s ≠ s := by
  intro heq
  have h2 := hasUpper_toLowerCase s
  rw [heq, h] at h2
  exact Bool.noConfusion h2

theorem removeById_of_absent (store : List CollegeAdminRecord) (i : Nat)
    (h : ∀ r ∈ store, r.id ≠ i) : removeById store i = store := by
  induction store with
  | nil => rfl
  | cons a rs ih =>
    simp only [removeById]
    rw [if_neg (h a (List.mem_cons_self a rs))]
    rw [ih (fun r hr => h r (List.mem_cons_of_mem a hr))]

theorem mem_removeById_ne {store : List CollegeAdminRecord} {i : Nat}
    (hnodup : (store.map CollegeAdminRecord.id).Nodup) :
    ∀ r ∈ removeById store i, r.id ≠ i := by
  induction store with
  | nil => intro r hr; cases hr
  | cons a rs ih =>
    rw [List.map_cons, List.nodup_cons] at hnodup
    intro r hr
    by_cases ha : a.id = i
    · simp only [removeById] at hr
      rw [if_pos ha] at hr
      intro hri
      apply hnodup.1
      rw [List.mem_map]
      exact ⟨r, hr, by rw [hri, ha]⟩
    · simp only [removeById] at hr
      rw [if_neg ha] at hr
      rcases List.mem_cons.mp hr with h | h
      · rw [h]; exact ha
      · exact ih hnodup.2 r h

theorem findUserByEmail_eq_none {store : List User} {e : String}
    (h : ∀ u ∈ store, u.email ≠ e) : findUserByEmail store e = none := by
  unfold findUserByEmail
  rw [List.find?_eq_none]
  intro u hu
  simp only [beq_iff_eq]
  exact h u hu

theorem toLowerCase_eq_empty {s : String} (h : toLowerCase s = "") : s = "" := by
  have hdata : s.data.map Char.toLower = ([] : List Char) := congrArg String.data h
  have hd : s.data = [] := List.map_eq_nil_iff.mp hdata
  obtain ⟨data⟩ := s
  have hd2 : data = [] := hd
  rw [hd2]

/-- Evaluation of a successful registration: with nonempty fields, a
valid role and no stored user carrying the lowercased email, the handler
answers 201 and appends the user with the lowercased email and hashed
password. -/
theorem register_success (hash : String → String) (now : Nat)
    (name email password userType : String) (store : List User)
    (hname : name ≠ "") (hemail : email ≠ "") (hpw : password ≠ "")
    (hrole : userType = "admin" ∨ userType = "student")
    (hfresh : ∀ u ∈ store, u.email ≠ toLowerCase email) :
    register hash now (some name) (some email) (some password) (some userType) store =
      ((201, "User registered successfully."),
       store ++ [{ name := name, email := toLowerCase email,
                   password := hash password, userType := userType,
                   createdAt := now }]) := by
  have huser : userType ≠ "" := by
    rcases hrole with h | h <;> simp [h]
  have hcond1 : ¬(name = "" ∨ email = "" ∨ password = "" ∨ userType = "") := by
    push_neg
    exact ⟨hname, hemail, hpw, huser⟩
  simp only [register]
  rw [if_neg hcond1, findUserByEmail_eq_none hfresh]
  simp only [Option.isSome_none, Bool.false_eq_true, if_false]
  rw [if_pos hrole]

theorem findPlacementById_eq_some {store : List PlacementData} {pid : Nat}
    {r : PlacementData} (hnodup : (store.map PlacementData.id).Nodup)
    (hr : r ∈ store) (hid : r.id = pid) :
    findPlacementById store pid = some r := by
  induction store with
  | nil => cases hr
  | cons a rs ih =>
    rw [List.map_cons, List.nodup_cons] at hnodup
    rcases List.mem_cons.mp hr with rfl | hmem
    · unfold findPlacementById
      exact List.find?_cons_of_pos rs (by simp [hid])
    · have ha : a.id ≠ pid := by
        intro haid
        apply hnodup.1
        rw [List.mem_map]
        exact ⟨r, hmem, by rw [hid, haid]⟩
      unfold findPlacementById
      rw [List.find?_cons_of_neg rs (by simp [ha])]
      exact ih hnodup.2 hmem

theorem setApproved_decomp {store : List PlacementData} {pid : Nat}
    {r : PlacementData} (hnodup : (store.map PlacementData.id).Nodup)
    (hr : r ∈ store) (hid : r.id = pid) :
    ∃ pre post, store = pre ++ r :: post ∧
      setApproved store pid = pre ++ { r with approved := true } :: post ∧
      (∀ x ∈ pre, x.id ≠ pid) ∧ (∀ x ∈ post, x.id ≠ pid) := by
  induction store with
  | nil => cases hr
  | cons a rs ih =>
    rw [List.map_cons, List.nodup_cons] at hnodup
    by_cases ha : a.id = pid
    · have hra : r = a := by
        rcases List.mem_cons.mp hr with rfl | hmem
        · rfl
        · exfalso
          apply hnodup.1
          rw [List.mem_map]
          exact ⟨r, hmem, by rw [hid, ha]⟩
      refine ⟨[], rs, by rw [hra]; rfl, ?_, ?_, ?_⟩
      · simp only [setApproved]
        rw [if_pos ha, hra]
        rfl
      · intro x hx
        cases hx
      · intro x hx
        intro hxid
        apply hnodup.1
        rw [List.mem_map]
        exact ⟨x, hx, by rw [hxid, ha]⟩
    · have hmem : r ∈ rs := by
        rcases List.mem_cons.mp hr with rfl | hmem
        · exact absurd hid ha
        · exact hmem
      obtain ⟨pre, post, hsplit, hset, hpre, hpost⟩ := ih hnodup.2 hmem
      refine ⟨a :: pre, post, by rw [List.cons_append, hsplit], ?_, ?_, hpost⟩
      · simp only [setApproved]
        rw [if_neg ha, hset]
        rfl
      · intro x hx
        rcases List.mem_cons.mp hx with rfl | hx2
        · exact ha
        · exact hpre x hx2

theorem mem_listPending_source {fs : FileSys} {store : List PlacementData}
    {e : PendingEntry} (he : e ∈ listPending fs store) :
    ∃ x ∈ store, x.approved = false ∧ x.id = e.id := by
  unfold listPending at he
  rw [List.mem_filterMap] at he
  obtain ⟨x, hx, hmap⟩ := he
  rw [List.mem_filter] at hx
  rw [Option.map_eq_some'] at hmap
  obtain ⟨rows, _, hrows⟩ := hmap
  refine ⟨x, hx.1, by simpa using hx.2, ?_⟩
  rw [← hrows]

/-! ## Claims -/

/-- C1 (counterexample): the invariant "a request exists in at most one of
the pending and approved collections at every point" fails between the two
awaits of the approve handler: after `ApprovedCollegeAdmin.create(admin)`
and before `CollegeAdmin.findByIdAndDelete(admin._id)`, the concrete
request `sampleAdmin` is present in both collections. -/
theorem approveCollegeAdmin_not_exclusive_midstep :
    sampleAdmin ∈
      (approveCollegeAdminStep1 sampleAdmin
        { pending := [sampleAdmin], approved := [] }).pending ∧
    sampleAdmin ∈
      (approveCollegeAdminStep1 sampleAdmin
        { pending := [sampleAdmin], approved := [] }).approved := by
  constructor
  · exact List.mem_cons_self _ _
  · simp [approveCollegeAdminStep1]

/-- C1 (amended): `approve(request)` copies the given record into the
approved collection and then deletes the pending record by id; after the
handler completes the record is absent from the pending set and present
field-for-field in the approved set, so at completion it exists in at
most one collection — but between the copy and the delete it exists in
both (see the counterexample). -/
theorem approveCollegeAdmin_copy_then_delete
    (admin : CollegeAdminRecord) (st : CollegeAdminState)
    (hnodup : (st.pending.map CollegeAdminRecord.id).Nodup) :
    approveCollegeAdmin admin st =
      (200, approveCollegeAdminStep2 admin (approveCollegeAdminStep1 admin st)) ∧
    (approveCollegeAdmin admin st).2.approved = st.approved ++ [admin] ∧
    admin ∈ (approveCollegeAdmin admin st).2.approved ∧
    (∀ r ∈ (approveCollegeAdmin admin st).2.pending, r.id ≠ admin.id) := by
  refine ⟨rfl, rfl, ?_, ?_⟩
  · simp [approveCollegeAdmin, approveCollegeAdminStep1, approveCollegeAdminStep2]
  · intro r hr
    have hr2 : r ∈ removeById st.pending admin.id := hr
    exact mem_removeById_ne hnodup r hr2

/-- C1 (witness): the amended theorem applied to a one-request pending
store. -/
theorem approveCollegeAdmin_copy_then_delete_witness :
    (([sampleAdmin].map CollegeAdminRecord.id).Nodup) ∧
    (approveCollegeAdmin sampleAdmin { pending := [sampleAdmin], approved := [] }).2.approved =
      [] ++ [sampleAdmin] ∧
    (∀ r ∈ (approveCollegeAdmin sampleAdmin
        { pending := [sampleAdmin], approved := [] }).2.pending,
      r.id ≠ sampleAdmin.id) := by
  have hnodup : (([sampleAdmin].map CollegeAdminRecord.id)).Nodup := by
    simp
  have h := approveCollegeAdmin_copy_then_delete sampleAdmin
    { pending := [sampleAdmin], approved := [] } hnodup
  exact ⟨hnodup, h.2.1, h.2.2.2⟩

/-- C2: with nonempty name/password, a valid role and no user already
holding the lowercased email, the first registration answers 201 and
stores the user; a second registration with the same email compared
case-insensitively (any nonempty fields) answers 400 "Email already in
use." and leaves the user store exactly as the first call left it. -/
theorem register_duplicate_email_conflict
    (hash : String → String) (now now2 : Nat) (store : List User)
    (name email password userType name2 email2 password2 userType2 : String)
    (hname : name ≠ "") (hemail : email ≠ "") (hpw : password ≠ "")
    (hrole : userType = "admin" ∨ userType = "student")
    (hname2 : name2 ≠ "") (hpw2 : password2 ≠ "") (hrole2 : userType2 ≠ "")
    (hsame : toLowerCase email2 = toLowerCase email)
    (hfresh : ∀ u ∈ store, u.email ≠ toLowerCase email) :
    (register hash now (some name) (some email) (some password) (some userType) store).1 =
      (201, "User registered successfully.") ∧
    (register hash now2 (some name2) (some email2) (some password2) (some userType2)
        (register hash now (some name) (some email) (some password) (some userType) store).2) =
      ((400, "Email already in use."),
       (register hash now (some name) (some email) (some password) (some userType) store).2) := by
  have h1 := register_success hash now name email password userType store
    hname hemail hpw hrole hfresh
  refine ⟨by rw [h1], ?_⟩
  have hemail2 : email2 ≠ "" := by
    intro h
    apply hemail
    apply toLowerCase_eq_empty
    rw [← hsame, h]
    rfl
  have hcond1 : ¬(name2 = "" ∨ email2 = "" ∨ password2 = "" ∨ userType2 = "") := by
    push_neg
    exact ⟨hname2, hemail2, hpw2, hrole2⟩
  rw [h1]
  simp only [register]
  rw [if_neg hcond1]
  have hfind : findUserByEmail
      (store ++ [{ name := name, email := toLowerCase email,
                   password := hash password, userType := userType,
                   createdAt := now }]) (toLowerCase email2) =
      some { name := name, email := toLowerCase email,
             password := hash password, userType := userType,
             createdAt := now } := by
    unfold findUserByEmail
    rw [hsame, List.find?_append]
    have hnone : store.find? (fun u => u.email == toLowerCase email) = none := by
      have := findUserByEmail_eq_none hfresh
      unfold findUserByEmail at this
      exact this
    rw [hnone]
    simp [beq_iff_eq]
  rw [hfind]
  rfl

/-- C2 (witness): registering "Bob@X.com" into the empty store succeeds;
registering "bob@x.COM" next fails with the conflict response and leaves
the store unchanged. -/
theorem register_duplicate_email_conflict_witness :
    (register (fun s => s) 0 (some "A") (some "Bob@X.com") (some "p")
        (some "student") []).1 = (201, "User registered successfully.") ∧
    (register (fun s => s) 1 (some "B") (some "bob@x.COM") (some "q")
        (some "admin")
        (register (fun s => s) 0 (some "A") (some "Bob@X.com") (some "p")
          (some "student") []).2) =
      ((400, "Email already in use."),
       (register (fun s => s) 0 (some "A") (some "Bob@X.com") (some "p")
          (some "student") []).2) := by
  have h := register_duplicate_email_conflict (fun s => s) 0 1 []
    "A" "Bob@X.com" "p" "student" "B" "bob@x.COM" "q" "admin"
    (by decide) (by decide) (by decide) (Or.inr rfl)
    (by decide) (by decide) (by decide) (by decide)
    (fun u hu => absurd hu (List.not_mem_nil u))
  exact h

/-- C3: a login against a stored user's email with a password the hash
comparison rejects, and a login with an email that matches no stored
user, produce the identical 400 "Invalid credentials." response — the
two failure causes are indistinguishable to the caller. -/
theorem login_failure_indistinguishable
    (compare : String → String → Bool) (sign : User → String)
    (store : List User) (email p email2 p2 : String) (u : User)
    (hemail : email ≠ "") (hp : p ≠ "")
    (hemail2 : email2 ≠ "") (hp2 : p2 ≠ "")
    (hfound : findUserByEmail store email = some u)
    (hwrong : compare p u.password = false)
    (hmissing : findUserByEmail store email2 = none) :
    login compare sign (some email) (some p) store =
      .failure 400 "Invalid credentials." ∧
    login compare sign (some email2) (some p2) store =
      .failure 400 "Invalid credentials." ∧
    login compare sign (some email) (some p) store =
      login compare sign (some email2) (some p2) store := by
  have hcond1 : ¬(email = "" ∨ p = "") := by
    push_neg
    exact ⟨hemail, hp⟩
  have hcond2 : ¬(email2 = "" ∨ p2 = "") := by
    push_neg
    exact ⟨hemail2, hp2⟩
  have ha : login compare sign (some email) (some p) store =
      .failure 400 "Invalid credentials." := by
    simp only [login]
    rw [if_neg hcond1, hfound]
    simp only [hwrong, Bool.false_eq_true, if_false]
  have hb : login compare sign (some email2) (some p2) store =
      .failure 400 "Invalid credentials." := by
    simp only [login]
    rw [if_neg hcond2, hmissing]
  exact ⟨ha, hb, by rw [ha, hb]⟩

/-- C3 (witness): the theorem applied to a one-user store, an
equality-test hash comparison, a wrong password and an unknown email. -/
theorem login_failure_indistinguishable_witness :
    findUserByEmail
      [{ name := "A", email := "a@x.com", password := "hp",
         userType := "student", createdAt := 0 }] "a@x.com" =
      some { name := "A", email := "a@x.com", password := "hp",
             userType := "student", createdAt := 0 } ∧
    login (fun a b => a == b) (fun u => u.name) (some "a@x.com") (some "bad")
      [{ name := "A", email := "a@x.com", password := "hp",
         userType := "student", createdAt := 0 }] =
      .failure 400 "Invalid credentials." ∧
    login (fun a b => a == b) (fun u => u.name) (some "ghost@x.com") (some "bad")
      [{ name := "A", email := "a@x.com", password := "hp",
         userType := "student", createdAt := 0 }] =
      .failure 400 "Invalid credentials." := by
  have h := login_failure_indistinguishable (fun a b => a == b) (fun u => u.name)
    [{ name := "A", email := "a@x.com", password := "hp",
       userType := "student", createdAt := 0 }]
    "a@x.com" "bad" "ghost@x.com" "bad"
    { name := "A", email := "a@x.com", password := "hp",
      userType := "student", createdAt := 0 }
    (by decide) (by decide) (by decide) (by decide) rfl (by decide) rfl
  exact ⟨rfl, h.1, h.2.1⟩

/-- C4: registration lowercases the stored email while login looks the
email up as given; so after registering with an email containing an
uppercase letter (into a store whose emails are all uppercase-free, as
registration guarantees), logging in with exactly the registration-time
email string and the correct password fails with the AuthError
response. -/
theorem register_uppercase_email_login_fails
    (hash : String → String) (compare : String → String → Bool)
    (sign : User → String) (now : Nat) (store : List User)
    (name email password userType : String)
    (hup : hasUpper email = true)
    (hstore : ∀ u ∈ store, hasUpper u.email = false)
    (hname : name ≠ "") (hpw : password ≠ "")
    (hrole : userType = "admin" ∨ userType = "student")
    (hfresh : ∀ u ∈ store, u.email ≠ toLowerCase email) :
    (register hash now (some name) (some email) (some password) (some userType) store).1.1 =
      201 ∧
    login compare sign (some email) (some password)
        (register hash now (some name) (some email) (some password) (some userType) store).2 =
      .failure 400 "Invalid credentials." := by
  have hemail : email ≠ "" := by
    intro h
    rw [h] at hup
    simp [hasUpper] at hup
  have h1 := register_success hash now name email password userType store
    hname hemail hpw hrole hfresh
  refine ⟨by rw [h1], ?_⟩
  rw [h1]
  have hcond : ¬(email = "" ∨ password = "") := by
    push_neg
    exact ⟨hemail, hpw⟩
  have hnone : findUserByEmail
      (store ++ [{ name := name, email := toLowerCase email,
                   password := hash password, userType := userType,
                   createdAt := now }]) email = none := by
    apply findUserByEmail_eq_none
    intro u hu
    rcases List.mem_append.mp hu with h | h
    · intro heq
      have := hstore u h
      rw [heq, hup] at this
      exact Bool.noConfusion this
    · rcases List.mem_singleton.mp h with rfl
      exact toLowerCase_ne_of_hasUpper hup
  simp only [login]
  rw [if_neg hcond, hnone]

/-- C4 (witness): registering "Stu@Mail.com" into the empty store, then
logging in with "Stu@Mail.com" and the correct password, fails. -/
theorem register_uppercase_email_login_fails_witness :
    hasUpper "Stu@Mail.com" = true ∧
    login (fun a b => a == b) (fun u => u.name) (some "Stu@Mail.com") (some "pw")
        (register (fun s => s) 0 (some "S") (some "Stu@Mail.com") (some "pw")
          (some "student") []).2 =
      .failure 400 "Invalid credentials." := by
  have h := register_uppercase_email_login_fails (fun s => s) (fun a b => a == b)
    (fun u => u.name) 0 [] "S" "Stu@Mail.com" "pw" "student"
    (by decide) (fun u hu => absurd hu (List.not_mem_nil u))
    (by decide) (by decide) (Or.inr rfl)
    (fun u hu => absurd hu (List.not_mem_nil u))
  exact ⟨by decide, h.2⟩

/-- C5 (counterexample): a submission whose serialized `marks10` is not
valid JSON is answered with status 500, not a 400-class ValidationError
response. -/
theorem submitDetails_malformed_marks10_not_400 :
    (submitDetails malformedBody []).1.1 = 500 ∧
    (submitDetails malformedBody []).1.1 ≠ 400 ∧
    (submitDetails malformedBody []).2 = [] := by
  refine ⟨rfl, ?_, rfl⟩
  intro h
  have h2 : (500 : Nat) = 400 := by
    rw [show (500 : Nat) = (submitDetails malformedBody []).1.1 from rfl, h]
  omega

/-- C5 (amended): for every profile submission whose serialized `marks10`
field is not valid structured text, `submitDetails` fails — with the
handler's catch-all 500 response, not a 400-class ValidationError — and
persists nothing: the student store is unchanged. -/
theorem submitDetails_malformed_marks10_500_no_persist
    (body : SubmitDetailsBody) (store : List Student)
    (h : jsonParseField body.marks10 = none) :
    submitDetails body store = ((500, "Failed to save student details"), store) := by
  unfold submitDetails
  rw [h]

/-- C5 (witness): the amended theorem applied to the concrete malformed
submission. -/
theorem submitDetails_malformed_marks10_500_no_persist_witness :
    jsonParseField malformedBody.marks10 = none ∧
    submitDetails malformedBody [] = ((500, "Failed to save student details"), []) := by
  refine ⟨rfl, ?_⟩
  exact submitDetails_malformed_marks10_500_no_persist malformedBody [] rfl

/-- C9: for an id matching no stored pending college-admin request,
`approve` (with a body carrying that id) and `disapprove(id)` both answer
200 rather than a NotFoundError, `disapprove` leaves the pending
collection unchanged (as does `approve`), and neither reports a
missing-id failure. -/
theorem collegeAdmin_missing_id_success
    (st : CollegeAdminState) (admin : CollegeAdminRecord) (i : Nat)
    (h1 : ∀ r ∈ st.pending, r.id ≠ admin.id)
    (h2 : ∀ r ∈ st.pending, r.id ≠ i) :
    (approveCollegeAdmin admin st).1 = 200 ∧
    (approveCollegeAdmin admin st).2.pending = st.pending ∧
    (disapproveCollegeAdmin i st).1 = 200 ∧
    (disapproveCollegeAdmin i st).2 = st := by
  refine ⟨rfl, ?_, rfl, ?_⟩
  · have : (approveCollegeAdmin admin st).2.pending =
        removeById st.pending admin.id := rfl
    rw [this, removeById_of_absent st.pending admin.id h1]
  · have : (disapproveCollegeAdmin i st).2 =
        { st with pending := removeById st.pending i } := rfl
    rw [this, removeById_of_absent st.pending i h2]

/-- C9 (witness): the theorem applied to a store whose only pending
request has id 1, with an approve body carrying id 2 and a disapprove id
of 3. -/
theorem collegeAdmin_missing_id_success_witness :
    (∀ r ∈ ([sampleAdmin] : List CollegeAdminRecord), r.id ≠ sampleAdmin2.id) ∧
    (approveCollegeAdmin sampleAdmin2
      { pending := [sampleAdmin], approved := [] }).1 = 200 ∧
    (disapproveCollegeAdmin 3
      { pending := [sampleAdmin], approved := [] }).2 =
      { pending := [sampleAdmin], approved := [] } := by
  have h1 : ∀ r ∈ ([sampleAdmin] : List CollegeAdminRecord),
      r.id ≠ sampleAdmin2.id := by decide
  have h2 : ∀ r ∈ ([sampleAdmin] : List CollegeAdminRecord), r.id ≠ 3 := by decide
  have h := collegeAdmin_missing_id_success
    { pending := [sampleAdmin], approved := [] } sampleAdmin2 3 h1 h2
  exact ⟨h1, h.1, h.2.2.2⟩

/-- C7: `updateStatus(orderId, status)` upserts by orderId — it always
answers 200 for any status string (no closed-set validation, no
NotFoundError); when no transaction carries the orderId it creates and
returns a fresh ledger record with that orderId and status, and when one
does it sets that record's status in place and returns it. -/
theorem updateStatus_upsert
    (now : Nat) (oid status : String) (store : List Transaction) :
    (updateStatus now oid status store).1.1 = 200 ∧
    ((∀ t ∈ store, t.orderId ≠ some oid) →
      updateStatus now oid status store =
        ((200, { email := none, orderId := some oid, amount := none,
                 status := status, timestamp := now }),
         store ++ [{ email := none, orderId := some oid, amount := none,
                     status := status, timestamp := now }])) ∧
    (∀ t, store.find? (fun t => t.orderId == some oid) = some t →
      updateStatus now oid status store =
        ((200, { t with status := status }),
         setTransactionStatus store oid status)) := by
  refine ⟨?_, ?_, ?_⟩
  · unfold updateStatus
    cases h : store.find? (fun t => t.orderId == some oid) <;> simp [h]
  · intro habsent
    have hnone : store.find? (fun t => t.orderId == some oid) = none := by
      rw [List.find?_eq_none]
      intro t ht
      simp only [beq_iff_eq]
      exact habsent t ht
    unfold updateStatus
    rw [hnone]
  · intro t ht
    unfold updateStatus
    rw [ht]

/-- C7 (witness): the theorem applied to the empty ledger (insert branch)
and to a one-record ledger (update branch). -/
theorem updateStatus_upsert_witness :
    updateStatus 42 "ordX" "completed" [] =
      ((200, { email := none, orderId := some "ordX", amount := none,
               status := "completed", timestamp := 42 }),
       [{ email := none, orderId := some "ordX", amount := none,
          status := "completed", timestamp := 42 }]) ∧
    updateStatus 42 "ord1" "failed" [sampleTransaction] =
      ((200, { sampleTransaction with status := "failed" }),
       setTransactionStatus [sampleTransaction] "ord1" "failed") := by
  constructor
  · exact (updateStatus_upsert 42 "ordX" "completed" []).2.1
      (fun t ht => absurd ht (List.not_mem_nil t))
  · exact (updateStatus_upsert 42 "ord1" "failed" [sampleTransaction]).2.2
      sampleTransaction rfl

/-- C6: with the Mongo invariant that stored ids are unique,
`approve(id)` on a missing id answers 404 NotFoundError; on a present id
it sets `approved := true` on that record in place (all other fields and
all other records unchanged) and returns the updated record, after which
the id no longer appears in `listPending` and the record appears in
`queryApproved` for its collegeName and year (whenever its file is
decodable, its collegeName nonempty and the year filter parses back to
its stored year). -/
theorem approvePlacement_spec
    (fs : FileSys) (store : List PlacementData) (pid : Nat)
    (hnodup : (store.map PlacementData.id).Nodup) :
    ((∀ r ∈ store, r.id ≠ pid) →
      approvePlacement pid store =
        ({ status := 404, message := "Placement not found", updated := none },
         store)) ∧
    (∀ r ∈ store, r.id = pid →
      (approvePlacement pid store).1 =
        { status := 200, message := "Placement approved successfully",
          updated := some { r with approved := true } } ∧
      (∃ pre post, store = pre ++ r :: post ∧
        (approvePlacement pid store).2 = pre ++ { r with approved := true } :: post) ∧
      (∀ e ∈ listPending fs (approvePlacement pid store).2, e.id ≠ pid) ∧
      (∀ ys rows, r.collegeName ≠ "" → ys ≠ "" → parseIntJS ys = some r.year →
        fileLookup fs r.fileUrl = some rows →
        ∃ entries,
          queryApproved fs (some r.collegeName) (some ys)
            (approvePlacement pid store).2 = .ok entries ∧
          { collegeName := r.collegeName, year := r.year, data := rows } ∈
            entries)) := by
  constructor
  · intro habsent
    have hnone : findPlacementById store pid = none := by
      unfold findPlacementById
      rw [List.find?_eq_none]
      intro x hx
      simp only [beq_iff_eq]
      exact habsent x hx
    unfold approvePlacement
    rw [hnone]
  · intro r hr hid
    have hfind : findPlacementById store pid = some r :=
      findPlacementById_eq_some hnodup hr hid
    have hres : approvePlacement pid store =
        ({ status := 200, message := "Placement approved successfully",
           updated := some { r with approved := true } }, setApproved store pid) := by
      unfold approvePlacement
      rw [hfind]
    obtain ⟨pre, post, hsplit, hset, hpre, hpost⟩ :=
      setApproved_decomp hnodup hr hid
    refine ⟨by rw [hres], ⟨pre, post, hsplit, by rw [hres, hset]⟩, ?_, ?_⟩
    · intro e he
      rw [hres] at he
      obtain ⟨x, hxmem, hxapp, hxid⟩ := mem_listPending_source he
      rw [hset] at hxmem
      rcases List.mem_append.mp hxmem with hx | hx
      · rw [← hxid]
        exact hpre x hx
      · rcases List.mem_cons.mp hx with rfl | hx2
        · exact absurd hxapp (by simp)
        · rw [← hxid]
          exact hpost x hx2
    · intro ys rows hcn hys0 hys hfile
      have hmem : ({ r with approved := true } : PlacementData) ∈
          setApproved store pid := by
        rw [hset]
        exact List.mem_append.mpr (Or.inr (List.mem_cons_self _ _))
      have hfilt : decide (approvedFilter r.collegeName ys
          { r with approved := true }) = true := by
        rw [decide_eq_true_iff]
        exact ⟨rfl, hys.symm, rfl⟩
      have hrec : ({ r with approved := true } : PlacementData) ∈
          (setApproved store pid).filter
            (fun x => decide (approvedFilter r.collegeName ys x)) :=
        List.mem_filter.mpr ⟨hmem, hfilt⟩
      have hne : ((setApproved store pid).filter
          (fun x => decide (approvedFilter r.collegeName ys x))).isEmpty = false :=
        List.isEmpty_eq_false.mpr (List.ne_nil_of_mem hrec)
      rw [hres]
      simp only [queryApproved]
      rw [if_neg (by push_neg; exact ⟨hcn, hys0⟩), if_neg (by rw [hne]; simp)]
      refine ⟨_, rfl, ?_⟩
      rw [List.mem_filterMap]
      exact ⟨{ r with approved := true }, hrec, by rw [show ({ r with approved := true } : PlacementData).fileUrl = r.fileUrl from rfl, hfile]; rfl⟩

/-- C6 (witness): the theorem applied to a one-record pending store with
a decodable file, approving id 7 and querying "IIT"/"2023". -/
theorem approvePlacement_spec_witness :
    (approvePlacement 7 [samplePlacement]).1 =
      { status := 200, message := "Placement approved successfully",
        updated := some { samplePlacement with approved := true } } ∧
    (∀ e ∈ listPending sampleFs (approvePlacement 7 [samplePlacement]).2,
      e.id ≠ 7) ∧
    (∃ entries,
      queryApproved sampleFs (some "IIT") (some "2023")
        (approvePlacement 7 [samplePlacement]).2 = .ok entries ∧
      { collegeName := "IIT", year := 2023, data := sampleRows } ∈ entries) := by
  have hnodup : (([samplePlacement] : List PlacementData).map
      PlacementData.id).Nodup := by simp
  have h := (approvePlacement_spec sampleFs [samplePlacement] 7 hnodup).2
    samplePlacement (List.mem_cons_self _ _) rfl
  refine ⟨h.1, h.2.2.1, ?_⟩
  have h3 := h.2.2.2 "2023" sampleRows (by decide) (by decide) (by decide) rfl
  exact h3

/-- C8: `queryApproved(collegeName, year)` answers 400 ValidationError
when either filter is absent or empty; 404 NotFoundError when no
approved stored record matches both filters; and otherwise `.ok` with
one entry per matching record whose file decodes — every matching
record with a decodable file contributes its
`(collegeName, year, rows)` entry, and every returned entry comes from
such a matching record. -/
theorem queryApproved_spec (fs : FileSys) (store : List PlacementData)
    (collegeName year : Option String) :
    ((collegeName = none ∨ collegeName = some "" ∨ year = none ∨ year = some "") →
      queryApproved fs collegeName year store =
        .failure 400 "College name and year are required") ∧
    (∀ cn y, collegeName = some cn → year = some y → cn ≠ "" → y ≠ "" →
      ((∀ r ∈ store, ¬ approvedFilter cn y r) →
        queryApproved fs collegeName year store =
          .failure 404 "No approved placements found for the specified college and year") ∧
      (∀ r ∈ store, approvedFilter cn y r →
        ∃ entries, queryApproved fs collegeName year store = .ok entries ∧
          (∀ rows, fileLookup fs r.fileUrl = some rows →
            { collegeName := r.collegeName, year := r.year, data := rows } ∈
              entries) ∧
          (∀ e ∈ entries, ∃ x ∈ store, approvedFilter cn y x ∧
            fileLookup fs x.fileUrl = some e.data ∧
            e.collegeName = x.collegeName ∧ e.year = x.year))) := by
  constructor
  · intro hbad
    rcases hbad with rfl | rfl | rfl | rfl
    · cases year <;> rfl
    · cases year with
      | none => rfl
      | some y =>
        simp only [queryApproved]
        rw [if_pos (Or.inl trivial)]
    · cases collegeName <;> rfl
    · cases collegeName with
      | none => rfl
      | some cn =>
        simp only [queryApproved]
        rw [if_pos (Or.inr trivial)]
  · rintro cn y rfl rfl hcn hy
    constructor
    · intro hempty
      have hnil : store.filter (fun r => decide (approvedFilter cn y r)) = [] := by
        rw [List.filter_eq_nil_iff]
        intro r hr
        simp only [decide_eq_true_iff]
        exact hempty r hr
      simp only [queryApproved]
      rw [if_neg (by push_neg; exact ⟨hcn, hy⟩), if_pos (by rw [hnil]; rfl)]
    · intro r hr hfilt
      have hrec : r ∈ store.filter (fun x => decide (approvedFilter cn y x)) :=
        List.mem_filter.mpr ⟨hr, by rw [decide_eq_true_iff]; exact hfilt⟩
      have hne : (store.filter
          (fun x => decide (approvedFilter cn y x))).isEmpty = false :=
        List.isEmpty_eq_false.mpr (List.ne_nil_of_mem hrec)
      simp only [queryApproved]
      rw [if_neg (by push_neg; exact ⟨hcn, hy⟩), if_neg (by rw [hne]; simp)]
      refine ⟨_, rfl, ?_, ?_⟩
      · intro rows hrows
        rw [List.mem_filterMap]
        exact ⟨r, hrec, by rw [hrows]; rfl⟩
      · intro e he
        rw [List.mem_filterMap] at he
        obtain ⟨x, hx, hex⟩ := he
        rw [List.mem_filter] at hx
        rw [Option.map_eq_some'] at hex
        obtain ⟨rows, hlook, hrows⟩ := hex
        refine ⟨x, hx.1, by simpa [decide_eq_true_iff] using hx.2, ?_, ?_, ?_⟩
        · rw [← hrows]
          exact hlook
        · rw [← hrows]
        · rw [← hrows]

/-- C8 (witness): the theorem applied to a one-record approved store —
the missing-filter 400 response and the successful query containing the
decoded entry. -/
theorem queryApproved_spec_witness :
    queryApproved sampleFs none (some "2023") [sampleApproved] =
      .failure 400 "College name and year are required" ∧
    (∃ entries,
      queryApproved sampleFs (some "IIT") (some "2023") [sampleApproved] =
        .ok entries ∧
      { collegeName := "IIT", year := 2023, data := sampleRows } ∈ entries) := by
  constructor
  · exact (queryApproved_spec sampleFs [sampleApproved] none (some "2023")).1
      (Or.inl rfl)
  · have h := (queryApproved_spec sampleFs [sampleApproved]
        (some "IIT") (some "2023")).2 "IIT" "2023" rfl rfl
        (by decide) (by decide)
    obtain ⟨entries, hok, hfwd, _⟩ := h.2 sampleApproved
      (List.mem_cons_self _ _) (by constructor <;> first | rfl | exact ⟨by decide, rfl⟩)
    exact ⟨entries, hok, hfwd sampleRows rfl⟩

/-- C10: the insert branch of `updateStatus` creates a ledger record
carrying only the given orderId, the given status and the default
timestamp — its email and amount are absent — unlike records created via
`record(email, orderId, amount)`, which carry email and amount. -/
theorem updateStatus_insert_shape
    (now now2 : Nat) (oid status : String) (store : List Transaction)
    (e oid2 : String) (a : Int) (st2 : List Transaction)
    (habsent : ∀ t ∈ store, t.orderId ≠ some oid) :
    ((updateStatus now oid status store).1.2.orderId = some oid ∧
     (updateStatus now oid status store).1.2.status = status ∧
     (updateStatus now oid status store).1.2.timestamp = now ∧
     (updateStatus now oid status store).1.2.email = none ∧
     (updateStatus now oid status store).1.2.amount = none) ∧
    ((recordTransaction now2 (some e) (some oid2) (some a) st2).1.2.email = some e ∧
     (recordTransaction now2 (some e) (some oid2) (some a) st2).1.2.amount = some a) := by
  have hnone : store.find? (fun t => t.orderId == some oid) = none := by
    rw [List.find?_eq_none]
    intro t ht
    simp only [beq_iff_eq]
    exact habsent t ht
  unfold updateStatus
  rw [hnone]
  exact ⟨⟨rfl, rfl, rfl, rfl, rfl⟩, rfl, rfl⟩

/-- C10 (witness): the theorem applied to a ledger holding one unrelated
transaction. -/
theorem updateStatus_insert_shape_witness :
    (∀ t ∈ ([sampleTransaction] : List Transaction), t.orderId ≠ some "ordY") ∧
    (updateStatus 50 "ordY" "completed" [sampleTransaction]).1.2.email = none ∧
    (updateStatus 50 "ordY" "completed" [sampleTransaction]).1.2.amount = none ∧
    (recordTransaction 9 (some "x@y.z") (some "ordZ") (some 700) []).1.2.email =
      some "x@y.z" := by
  have habsent : ∀ t ∈ ([sampleTransaction] : List Transaction),
      t.orderId ≠ some "ordY" := by decide
  have h := updateStatus_insert_shape 50 9 "ordY" "completed"
    [sampleTransaction] "x@y.z" "ordZ" 700 [] habsent
  exact ⟨habsent, h.1.2.2.2.1, h.1.2.2.2.2, h.2.1⟩

end NodeApp
